import Mathlib

/-!
Verification development for the collaborative graph-editor's
state-synchronization core.

Shallow embedding of:
* the backend `CollaborationServer` (the Y.Doc/keyed-map websocket server):
  shared document, join-time initialize/merge, per-operation mutation
  handlers, broadcast and error paths;
* the frontend `graphSlice` Redux reducers (local graph state);
* the `useCollaboration` sync coordinator (echo suppression);
* the `CollaborationClient` connection lifecycle (reconnect backoff,
  manual disconnect).

Numeric payload fields that are floating point in the source (`position`
coordinates, edge `weight`, `distance`, `edgeThickness`, …) are opaque to
the collaboration core — nothing in it computes with them — so they are
embedded as `Int` to keep every definition decidable.
-/

set_option autoImplicit false



/-- `GraphNode.position` — the 3-tuple of coordinates (opaque data here). -/
structure Position where
  x : Int
  y : Int
  z : Int
deriving DecidableEq, Repr

/-- `GraphNode` from `types/graph.ts`: id, label, position. -/
structure GraphNode where
  id : String
  label : String
  position : Position
deriving DecidableEq, Repr

/-- `GraphEdge` from `types/graph.ts`: id, source, target, optional weight,
direction flag. -/
structure GraphEdge where
  id : String
  source : String
  target : String
  weight : Option Int
  isDirected : Bool
deriving DecidableEq, Repr

/-- `SharedGraphState`: the wire-level pair of node and edge arrays. -/
structure SharedGraphState where
  nodes : List GraphNode
  edges : List GraphEdge
deriving DecidableEq, Repr

/-! ## Keyed map (the embedding of `Y.Map` / JS `Map`)

A `Y.Map` (as the server uses it: `set`, `has`, `delete`, `forEach`) is a
string-keyed map with insertion order; we embed it as a list of key/value
pairs where `set` replaces in place when the key is present and appends
otherwise (JS `Map` semantics). -/

/-- The association-list embedding of a `Y.Map`. -/
abbrev MapList (α : Type) : Type := List (String × α)

/-- The key sequence of a map. -/
def mkeys {α : Type} (m : MapList α) : List String :=
  m.map Prod.fst

/-- `Y.Map.has k`. -/
def mhas {α : Type} : MapList α → String → Bool
  | [], _ => false
  | p :: t, k => p.1 = k || mhas t k

/-- `Y.Map.set k v`: replace in place when the key is present, append
otherwise. -/
def mset {α : Type} : MapList α → String → α → MapList α
  | [], k, v => [(k, v)]
  | p :: t, k, v => if p.1 = k then (k, v) :: t else p :: mset t k v

/-- `Y.Map.delete k`. -/
def mdelete {α : Type} (m : MapList α) (k : String) : MapList α :=
  m.filter (fun p => p.1 != k)

/-- `Y.Map.get k`. -/
def mget {α : Type} : MapList α → String → Option α
  | [], _ => none
  | p :: t, k => if p.1 = k then some p.2 else mget t k

/-- The values of a map, in entry order (what `forEach` pushes). -/
def mvalues {α : Type} (m : MapList α) : List α :=
  m.map Prod.snd

/-- Keys are pairwise distinct — the invariant a genuine map enjoys. -/
def NodupMKeys {α : Type} (m : MapList α) : Prop :=
  (mkeys m).Nodup

instance {α : Type} (m : MapList α) : Decidable (NodupMKeys m) := by
  unfold NodupMKeys
  infer_instance

/-! ## Bulk upsert (the `forEach … map.set(x.id, x)` pattern)

`initializeDocWithState` and `mergeStateIntoDoc` both iterate an incoming
array and `set` each entity under its id; the value finally stored under a
key is the **last** array element carrying that id (last write wins). -/

/-- Fold an array into a map by `set`ting each element under its key
(`state.nodes.forEach((node) => nodesMap.set(node.id, {...node}))`). -/
def upsertAll {α : Type} (key : α → String) (m : MapList α)
    (l : List α) : MapList α :=
  l.foldl (fun acc x => mset acc (key x) x) m

/-- The last element of `l` whose key is `k`, if any — the value that a
sequence of upserts leaves under `k`. -/
def lastBy {α : Type} (key : α → String) : List α → String → Option α
  | [], _ => none
  | a :: t, k =>
    match lastBy key t k with
    | some v => some v
    | none => if key a = k then some a else none

/-- First-of-two-options: the first when present, the fallback
otherwise. -/
def updOr {α : Type} (o fallback : Option α) : Option α :=
  match o with
  | some v => some v
  | none => fallback

/-! ## The Collaboration Server (`websocket.ts`, Y.Doc version)

State: the Y.Doc's two keyed maps plus the `isInitialized` flag and the
`clients` set.  A websocket is a client id plus its `readyState`; outputs
are modelled as the list of `(recipient id, message)` sends a handler
performs. -/

/-- The Y.Doc: the `nodes` and `edges` keyed maps. -/
structure YDocState where
  nodes : MapList GraphNode
  edges : MapList GraphEdge
deriving DecidableEq, Repr

/-- `new Y.Doc()` — both maps empty. -/
def emptyDoc : YDocState := { nodes := [], edges := [] }

/-- A transport connection: identity plus whether `readyState === OPEN`. -/
structure Client where
  id : Nat
  isOpen : Bool
deriving DecidableEq, Repr

/-- The tagged protocol messages (`MessageType` plus the `ERROR` frames the
server emits outside the union).  `FULL_STATE` is declared in the union but
never constructed by the server; its payload shape is irrelevant here. -/
inductive Msg where
  | join (payload : Option SharedGraphState)
  | stateSync (payload : SharedGraphState)
  | nodeAdd (payload : GraphNode)
  | nodeUpdate (payload : GraphNode)
  | nodeRemove (payload : String)
  | edgeAdd (payload : GraphEdge)
  | edgeUpdate (payload : GraphEdge)
  | edgeRemove (payload : String)
  | fullState (payload : Option SharedGraphState)
  | err (payload : String)
deriving DecidableEq, Repr

/-- The `type` tag of a message, as the wire string. -/
def msgTypeName : Msg → String
  | .join _ => "JOIN"
  | .stateSync _ => "STATE_SYNC"
  | .nodeAdd _ => "NODE_ADD"
  | .nodeUpdate _ => "NODE_UPDATE"
  | .nodeRemove _ => "NODE_REMOVE"
  | .edgeAdd _ => "EDGE_ADD"
  | .edgeUpdate _ => "EDGE_UPDATE"
  | .edgeRemove _ => "EDGE_REMOVE"
  | .fullState _ => "FULL_STATE"
  | .err _ => "ERROR"

/-- `CollaborationServer`'s mutable fields: the doc, the init flag, the
registered clients. -/
structure ServerState where
  doc : YDocState
  isInitialized : Bool
  clients : List Client
deriving DecidableEq, Repr

/-- The server's state at construction. -/
def initialServer : ServerState :=
  { doc := emptyDoc, isInitialized := false, clients := [] }

/-- A performed send: recipient connection id and the message. -/
abbrev Send : Type := Nat × Msg

/-- `broadcast(message, excludeClient)`: send to every registered client
whose `readyState` is `OPEN`, except the excluded one (if any). -/
def serverBroadcast (clients : List Client) (message : Msg)
    (excludeClient : Option Nat) : List Send :=
  (clients.filter (fun c =>
      (match excludeClient with
       | none => true
       | some e => c.id != e) && c.isOpen)).map (fun c => (c.id, message))

/-- `sendMessage(ws, message)`: send only when the socket is open. -/
def sendMessage (ws : Client) (message : Msg) : List Send :=
  if ws.isOpen then [(ws.id, message)] else []

/-- `sendError(ws, error)`: a raw `ws.send` of an `ERROR` frame (no
readyState check in the source). -/
def sendError (ws : Client) (error : String) : List Send :=
  [(ws.id, Msg.err error)]

/-- `getStateFromDoc()`: convert both maps to arrays in entry order. -/
def getStateFromDoc (doc : YDocState) : SharedGraphState :=
  { nodes := mvalues doc.nodes, edges := mvalues doc.edges }

/-- `initializeDocWithState(state)` (name shortened): clear both maps, then
`set` every node and edge of the incoming state under its id. -/
def initDocWithState (state : SharedGraphState) : YDocState :=
  { nodes := upsertAll GraphNode.id [] state.nodes,
    edges := upsertAll GraphEdge.id [] state.edges }

/-- `mergeStateIntoDoc(state)`: upsert every node and edge of the incoming
state into the existing maps (same id ⇒ last write wins). -/
def mergeStateIntoDoc (state : SharedGraphState) (doc : YDocState) :
    YDocState :=
  { nodes := upsertAll GraphNode.id doc.nodes state.nodes,
    edges := upsertAll GraphEdge.id doc.edges state.edges }

/-- The ids of registered open clients, in registration order — the
recipients of an exclusion-free broadcast. -/
def openClientIds (clients : List Client) : List Nat :=
  (clients.filter (fun c => c.isOpen)).map (fun c => c.id)

/-- `handleJoin(ws, clientState)`: absent state ⇒ plain `STATE_SYNC` reply;
uninitialized ⇒ initialize then reply; initialized ⇒ merge, reply, and
broadcast the merged snapshot to every other client. -/
def handleJoin (s : ServerState) (ws : Client)
    (clientState : Option SharedGraphState) : ServerState × List Send :=
  match clientState with
  | none =>
    (s, sendMessage ws (Msg.stateSync (getStateFromDoc s.doc)))
  | some st =>
    if s.isInitialized = false then
      let s' : ServerState :=
        { s with doc := initDocWithState st, isInitialized := true }
      (s', sendMessage ws (Msg.stateSync (getStateFromDoc s'.doc)))
    else
      let s' : ServerState := { s with doc := mergeStateIntoDoc st s.doc }
      let currentState := getStateFromDoc s'.doc
      (s', sendMessage ws (Msg.stateSync currentState) ++
        serverBroadcast s.clients (Msg.stateSync currentState) (some ws.id))

/-- `handleNodeAdd(node)`: insert only when the id is absent; broadcast
with `excludeClient = null`. -/
def handleNodeAdd (s : ServerState) (node : GraphNode) :
    ServerState × List Send :=
  if mhas s.doc.nodes node.id then (s, [])
  else
    ({ s with doc := { s.doc with nodes := mset s.doc.nodes node.id node } },
     serverBroadcast s.clients (Msg.nodeAdd node) none)

/-- `handleNodeUpdate(node)`: replace only when the id is present;
broadcast with `excludeClient = null`. -/
def handleNodeUpdate (s : ServerState) (node : GraphNode) :
    ServerState × List Send :=
  if mhas s.doc.nodes node.id then
    ({ s with doc := { s.doc with nodes := mset s.doc.nodes node.id node } },
     serverBroadcast s.clients (Msg.nodeUpdate node) none)
  else (s, [])

/-- The edge ids the `handleNodeRemove` scan collects: every edge whose
`source` or `target` equals the removed node id. -/
def edgesToRemove (edges : MapList GraphEdge) (nodeId : String) :
    List String :=
  (edges.filter (fun p => p.2.source == nodeId || p.2.target == nodeId)).map
    Prod.fst

/-- `handleNodeRemove(nodeId)`: when the node is present, delete it, delete
every edge touching it, then broadcast with `excludeClient = null`;
otherwise do nothing. -/
def handleNodeRemove (s : ServerState) (nodeId : String) :
    ServerState × List Send :=
  if mhas s.doc.nodes nodeId then
    let nodes' := mdelete s.doc.nodes nodeId
    let edges' :=
      (edgesToRemove s.doc.edges nodeId).foldl
        (fun acc edgeId => mdelete acc edgeId) s.doc.edges
    ({ s with doc := { nodes := nodes', edges := edges' } },
     serverBroadcast s.clients (Msg.nodeRemove nodeId) none)
  else (s, [])

/-- `handleEdgeAdd(edge)`: insert only when the id is absent; broadcast
with `excludeClient = null`. -/
def handleEdgeAdd (s : ServerState) (edge : GraphEdge) :
    ServerState × List Send :=
  if mhas s.doc.edges edge.id then (s, [])
  else
    ({ s with doc := { s.doc with edges := mset s.doc.edges edge.id edge } },
     serverBroadcast s.clients (Msg.edgeAdd edge) none)

/-- `handleEdgeUpdate(edge)`: replace only when the id is present;
broadcast with `excludeClient = null`. -/
def handleEdgeUpdate (s : ServerState) (edge : GraphEdge) :
    ServerState × List Send :=
  if mhas s.doc.edges edge.id then
    ({ s with doc := { s.doc with edges := mset s.doc.edges edge.id edge } },
     serverBroadcast s.clients (Msg.edgeUpdate edge) none)
  else (s, [])

/-- `handleEdgeRemove(edgeId)`: delete only when the id is present;
broadcast with `excludeClient = null`. -/
def handleEdgeRemove (s : ServerState) (edgeId : String) :
    ServerState × List Send :=
  if mhas s.doc.edges edgeId then
    ({ s with doc := { s.doc with edges := mdelete s.doc.edges edgeId } },
     serverBroadcast s.clients (Msg.edgeRemove edgeId) none)
  else (s, [])

/-- `handleMessage(ws, message)`: dispatch on the `type` tag; every tag
outside the seven handled cases falls to the default branch, which sends an
`ERROR` frame to the originating socket only. -/
def handleMessage (s : ServerState) (ws : Client) (message : Msg) :
    ServerState × List Send :=
  match message with
  | .join payload => handleJoin s ws payload
  | .nodeAdd payload => handleNodeAdd s payload
  | .nodeUpdate payload => handleNodeUpdate s payload
  | .nodeRemove payload => handleNodeRemove s payload
  | .edgeAdd payload => handleEdgeAdd s payload
  | .edgeUpdate payload => handleEdgeUpdate s payload
  | .edgeRemove payload => handleEdgeRemove s payload
  | other =>
    (s, sendError ws ("Unknown message type: " ++ msgTypeName other))

/-- The `ws.on('close')` handler: drop the client; when no client remains,
replace the doc by a fresh `Y.Doc` and clear `isInitialized`. -/
def handleSocketClose (s : ServerState) (wsId : Nat) : ServerState :=
  let s' : ServerState :=
    { s with clients := s.clients.filter (fun c => c.id != wsId) }
  if s'.clients = [] then
    { s' with doc := emptyDoc, isInitialized := false }
  else s'

/-- The `ws.on('error')` handler: drop the client — and nothing else; in
particular it never resets the doc. -/
def handleSocketError (s : ServerState) (wsId : Nat) : ServerState :=
  { s with clients := s.clients.filter (fun c => c.id != wsId) }

/-- The `wss.on('connection')` handler's registry effect: `clients.add`. -/
def handleConnection (s : ServerState) (ws : Client) : ServerState :=
  { s with clients := s.clients ++ [ws] }

/-! ## The frontend graph slice (`graphSlice.ts`)

The Redux state: core `nodes`/`edges` plus the non-core UI fields
(selection, pathfinding and cycle results, animation, settings). -/

/-- `GraphSettings`. -/
structure GraphSettings where
  nodeColor : String
  nodeLabelColor : String
  edgeColor : String
  edgeLabelColor : String
  edgeThickness : Int
deriving DecidableEq, Repr

/-- The `pathfindingResult` record. -/
structure PathfindingResult where
  path : List String
  distance : Int
  visitedNodes : List String
  visitedEdges : List String
  startNode : String
  endNode : String
deriving DecidableEq, Repr

/-- The `cycleResult` record (`cycleMap` as an association list). -/
structure CycleResult where
  cycles : List (List String)
  cycleMap : List (String × List Nat)
  selectedCycles : List Nat
deriving DecidableEq, Repr

/-- One `AnimationStep`. -/
structure AnimationStep where
  visitedNodes : List String
  visitedEdges : List String
  currentNode : Option String
  currentNodeNeighbors : Option (List String)
  path : Option (List String)
  distance : Option Int
  isComplete : Bool
  description : Option String
  currentPath : Option (List String)
  discoveredCycles : Option (List (List String))
deriving DecidableEq, Repr

/-- The `algorithmType` union. -/
inductive AlgorithmType where
  | pathfinding
  | cycleDetection
deriving DecidableEq, Repr

/-- `AnimationState`. -/
structure AnimationState where
  isAnimating : Bool
  animationSteps : List AnimationStep
  currentStepIndex : Nat
  animationSpeed : Nat
  isPaused : Bool
  startNode : Option String
  endNode : Option String
  algorithmType : Option AlgorithmType
deriving DecidableEq, Repr

/-- The whole `GraphState` of the slice. -/
structure GraphState where
  nodes : List GraphNode
  edges : List GraphEdge
  selectedNode : Option String
  selectedEdge : Option String
  pathfindingResult : Option PathfindingResult
  cycleResult : Option CycleResult
  animationState : Option AnimationState
  settings : GraphSettings
deriving DecidableEq, Repr

/-- `defaultSettings`. -/
def defaultSettings : GraphSettings :=
  { nodeColor := "#b7c1fb", nodeLabelColor := "#636363",
    edgeColor := "#d4d4d4", edgeLabelColor := "#000000",
    edgeThickness := 0 }

/-- The slice's `initialState`. -/
def initialGraphState : GraphState :=
  { nodes := [], edges := [], selectedNode := none, selectedEdge := none,
    pathfindingResult := none, cycleResult := none, animationState := none,
    settings := defaultSettings }

/-- Replace the first list element with the given id by the payload — the
`find` + `Object.assign` pattern of the update reducers. -/
def replaceFirstNode : List GraphNode → GraphNode → List GraphNode
  | [], _ => []
  | n :: t, p => if n.id = p.id then p :: t else n :: replaceFirstNode t p

/-- Replace the first edge with the given id by the payload. -/
def replaceFirstEdge : List GraphEdge → GraphEdge → List GraphEdge
  | [], _ => []
  | e :: t, p => if e.id = p.id then p :: t else e :: replaceFirstEdge t p

namespace graphSlice

/-- Reducer `addNode`: push when the id is new, and select the new node. -/
def addNode (s : GraphState) (payload : GraphNode) : GraphState :=
  if s.nodes.any (fun n => n.id == payload.id) then s
  else { s with nodes := s.nodes ++ [payload],
                selectedNode := some payload.id }

/-- Reducer `removeNode`: drop the node, drop every edge touching it, and
clear the selection when the removed node was selected. -/
def removeNode (s : GraphState) (payload : String) : GraphState :=
  { s with
    nodes := s.nodes.filter (fun n => n.id != payload),
    edges := s.edges.filter
      (fun e => e.source != payload && e.target != payload),
    selectedNode :=
      if s.selectedNode = some payload then none else s.selectedNode }

/-- Reducer `updateNode`: overwrite the found node's fields in place. -/
def updateNode (s : GraphState) (payload : GraphNode) : GraphState :=
  { s with nodes := replaceFirstNode s.nodes payload }

/-- Reducer `addEdge`: push when the id is new, and select the new edge. -/
def addEdge (s : GraphState) (payload : GraphEdge) : GraphState :=
  if s.edges.any (fun e => e.id == payload.id) then s
  else { s with edges := s.edges ++ [payload],
                selectedEdge := some payload.id }

/-- Reducer `removeEdge`: drop the edge and clear the selection when the
removed edge was selected. -/
def removeEdge (s : GraphState) (payload : String) : GraphState :=
  { s with
    edges := s.edges.filter (fun e => e.id != payload),
    selectedEdge :=
      if s.selectedEdge = some payload then none else s.selectedEdge }

/-- Reducer `updateEdge`: overwrite the found edge's fields in place. -/
def updateEdge (s : GraphState) (payload : GraphEdge) : GraphState :=
  { s with edges := replaceFirstEdge s.edges payload }

/-- Reducer `setGraphState`: wholesale replacement by the payload (the
settings-migration fallback only matters for stored payloads lacking
settings, which the typed model always carries). -/
def setGraphState (_s : GraphState) (payload : GraphState) : GraphState :=
  payload

end graphSlice

/-! ## The sync coordinator (`useCollaboration`)

`handleRemoteMessage` applies a remote message through the slice reducers;
the listener effects forward local mutation actions to the wire unless the
`isApplyingRemoteChange` flag is set. -/

/-- Apply one remote message to the local slice state, exactly as the
`handleRemoteMessage` switch dispatches it (`STATE_SYNC` spreads the
current state and replaces `nodes`/`edges`; unknown types are ignored). -/
def applyRemoteMsg (s : GraphState) (message : Msg) : GraphState :=
  match message with
  | .stateSync st =>
    graphSlice.setGraphState s { s with nodes := st.nodes, edges := st.edges }
  | .nodeAdd n => graphSlice.addNode s n
  | .nodeUpdate n => graphSlice.updateNode s n
  | .nodeRemove i => graphSlice.removeNode s i
  | .edgeAdd e => graphSlice.addEdge s e
  | .edgeUpdate e => graphSlice.updateEdge s e
  | .edgeRemove i => graphSlice.removeEdge s i
  | _ => s

/-- The client-side coordinator state: the local slice state, the
`isApplyingRemoteChangeRef` flag, and whether the transport is open. -/
structure SyncState where
  graph : GraphState
  applyingRemote : Bool
  connected : Bool
deriving DecidableEq, Repr

/-- The `addNode` listener effect: forward the payload as a `NODE_ADD`
frame only when connected and the remote-change flag is down (the
`action.payload` truthiness check always passes for a node object). -/
def forwardAddNode (connected applyingRemote : Bool) (payload : GraphNode) :
    Option Msg :=
  if connected && !applyingRemote then some (Msg.nodeAdd payload) else none

/-- Dispatching a local `addNode` action: the reducer runs and the listener
effect decides transmission against the current flag. -/
def dispatchAddNode (s : SyncState) (payload : GraphNode) :
    SyncState × Option Msg :=
  ({ s with graph := graphSlice.addNode s.graph payload },
   forwardAddNode s.connected s.applyingRemote payload)

/-- `handleRemoteMessage` on a `NODE_ADD` frame: drop it when the flag is
already up; otherwise raise the flag, dispatch `addNode` (whose listener
effect sees the raised flag), and leave the flag up until the scheduled
timeout clears it. -/
def processRemoteNodeAdd (s : SyncState) (payload : GraphNode) :
    SyncState × List Msg :=
  if s.applyingRemote then (s, [])
  else
    let s1 : SyncState := { s with applyingRemote := true }
    let r := dispatchAddNode s1 payload
    (r.1, r.2.toList)

/-- The delayed `setTimeout` callback that ends the suppression window. -/
def clearSuppression (s : SyncState) : SyncState :=
  { s with applyingRemote := false }

/-! ## The collaboration client (`collaboration.ts`)

Reconnect backoff: linear in the attempt counter, capped, and the
manual-disconnect flag plus pending-timer bookkeeping of
`connect`/`disconnect`/`onclose`. -/

/-- `maxReconnectAttempts`. -/
def maxReconnectAttempts : Nat := 5

/-- `reconnectDelay` (milliseconds). -/
def reconnectDelay : Nat := 1000

/-- `attemptReconnect`, abstracted to its counter arithmetic: from a
counter value, either the incremented counter with the scheduled delay, or
nothing once the maximum is reached. -/
def attemptReconnect (reconnectAttempts : Nat) : Option (Nat × Nat) :=
  if reconnectAttempts < maxReconnectAttempts then
    let attempts := reconnectAttempts + 1
    some (attempts, reconnectDelay * attempts)
  else none

/-- A websocket's `readyState`, as far as the client logic reads it. -/
inductive WSReady where
  | connecting
  | opened
  | closed
deriving DecidableEq, Repr

/-- The `CollaborationClient`'s lifecycle state: the socket (if any), the
attempt counter, the manual-disconnect flag, the number of reconnect
timers currently scheduled, and how many sockets were ever created. -/
structure CClient where
  ws : Option WSReady
  reconnectAttempts : Nat
  isManuallyDisconnected : Bool
  pendingReconnects : Nat
  socketsCreated : Nat
deriving DecidableEq, Repr

/-- `connect(initialState)`: no-op when already open; otherwise clear the
manual-disconnect flag and construct a fresh socket. -/
def clientConnect (s : CClient) : CClient :=
  if s.ws = some WSReady.opened then s
  else
    { s with isManuallyDisconnected := false,
             ws := some WSReady.connecting,
             socketsCreated := s.socketsCreated + 1 }

/-- The scheduling effect of `attemptReconnect` on the lifecycle state:
below the cap, bump the counter and schedule one timer; at the cap, only
log. -/
def clientAttemptReconnect (s : CClient) : CClient :=
  if s.reconnectAttempts < maxReconnectAttempts then
    { s with reconnectAttempts := s.reconnectAttempts + 1,
             pendingReconnects := s.pendingReconnects + 1 }
  else s

/-- The `ws.onclose` handler: the socket is closed; unless manually
disconnected, schedule a reconnect. -/
def clientOnClose (s : CClient) : CClient :=
  let s' : CClient := { s with ws := some WSReady.closed }
  if s'.isManuallyDisconnected then s' else clientAttemptReconnect s'

/-- `disconnect()`: set the manual flag, close and null the socket, reset
the counter — but leave any already-scheduled reconnect timer running. -/
def clientDisconnect (s : CClient) : CClient :=
  { s with isManuallyDisconnected := true,
           ws := none,
           reconnectAttempts := 0 }

/-- A scheduled reconnect timer firing: it simply calls `connect`. -/
def clientTimerFire (s : CClient) : CClient :=
  if s.pendingReconnects > 0 then
    clientConnect { s with pendingReconnects := s.pendingReconnects - 1 }
  else s

/-- A connected client with no history: one socket, no pending timers. -/
def connectedClient : CClient :=
  { ws := some WSReady.opened, reconnectAttempts := 0,
    isManuallyDisconnected := false, pendingReconnects := 0,
    socketsCreated := 1 }

/-! ## Concrete fixtures for witnesses and counterexamples -/

/-- A sample node. -/
def nodeA : GraphNode :=
  { id := "nA", label := "A", position := { x := 0, y := 0, z := 0 } }

/-- A second sample node. -/
def nodeB : GraphNode :=
  { id := "nB", label := "B", position := { x := 1, y := 0, z := 0 } }

/-- An edge from `nA` to `nB`. -/
def edgeAB : GraphEdge :=
  { id := "eAB", source := "nA", target := "nB", weight := none,
    isDirected := false }

/-- Connection 0, open. -/
def client0 : Client := { id := 0, isOpen := true }

/-- Connection 1, open. -/
def client1 : Client := { id := 1, isOpen := true }

/-! ## C10 — unknown message types -/

/-- Whether the `handleMessage` switch has a case for the message. -/
def isHandledByServer : Msg → Bool
  | .join _ => true
  | .nodeAdd _ => true
  | .nodeUpdate _ => true
  | .nodeRemove _ => true
  | .edgeAdd _ => true
  | .edgeUpdate _ => true
  | .edgeRemove _ => true
  | .stateSync _ => false
  | .fullState _ => false
  | .err _ => false

/-! ## C5 — registry removal and document reset -/

/-- A one-client server holding an initialized, non-empty document. -/
def soloServer : ServerState :=
  { doc := { nodes := [("nA", nodeA)], edges := [] },
    isInitialized := true, clients := [client0] }

/-! ## C1 — mutation broadcasts -/

/-- A two-client server with an initialized document holding `nodeA`. -/
def pairServer : ServerState :=
  { doc := { nodes := [("nA", nodeA)], edges := [] },
    isInitialized := true, clients := [client0, client1] }

/-- A server whose document holds two nodes and the edge `eAB` touching
`nA`. -/
def cascadeServer : ServerState :=
  { doc := { nodes := [("nA", nodeA), ("nB", nodeB)],
             edges := [("eAB", edgeAB)] },
    isInitialized := true, clients := [client0, client1] }

/-- A two-client server, initialized with `nodeA`, about to serve a join
from connection 1. -/
def joinServer : ServerState :=
  { doc := { nodes := [("nA", nodeA)], edges := [] },
    isInitialized := true, clients := [client0, client1] }

/-- One inbound frame from one connection, as the reachability step. -/
def applyIncoming (s : ServerState) (cm : Client × Msg) : ServerState :=
  (handleMessage s cm.1 cm.2).1

@[simp] theorem mkeys_nil {α : Type} : mkeys ([] : MapList α) = [] := rfl

@[simp] theorem mkeys_cons {α : Type} (p : String × α) (t : MapList α) :
    mkeys (p :: t) = p.1 :: mkeys t := rfl

@[simp] theorem mhas_nil {α : Type} (k : String) :
    mhas ([] : MapList α) k = false := rfl

@[simp] theorem mhas_cons {α : Type} (p : String × α) (t : MapList α)
    (k : String) : mhas (p :: t) k = (p.1 = k || mhas t k) := rfl

theorem mhas_iff_mem_mkeys {α : Type} (m : MapList α) (k : String) :
    mhas m k = true ↔ k ∈ mkeys m := by
  induction m with
  | nil => simp
  | cons p t ih =>
    rw [mhas_cons]
    simp only [Bool.or_eq_true, decide_eq_true_eq, mkeys_cons, List.mem_cons]
    rw [ih]
    exact or_congr eq_comm Iff.rfl

theorem mkeys_mset_of_mhas {α : Type} (m : MapList α) (k : String) (v : α)
    (h : mhas m k = true) : mkeys (mset m k v) = mkeys m := by
  induction m with
  | nil => simp at h
  | cons p t ih =>
    by_cases hp : p.1 = k
    · simp [mset, hp]
    · simp only [mhas_cons, Bool.or_eq_true, decide_eq_true_eq] at h
      rcases h with h | h
      · exact absurd h hp
      · simp [mset, hp, ih h]

theorem mkeys_mset_of_not_mhas {α : Type} (m : MapList α) (k : String)
    (v : α) (h : mhas m k = false) :
    mkeys (mset m k v) = mkeys m ++ [k] := by
  induction m with
  | nil => simp [mset]
  | cons p t ih =>
    simp only [mhas_cons, Bool.or_eq_false_iff, decide_eq_false_iff_not] at h
    simp [mset, h.1, ih h.2]

/-- `set` keeps the map's keys pairwise distinct. -/
theorem nodupMKeys_mset {α : Type} (m : MapList α) (k : String) (v : α)
    (h : NodupMKeys m) : NodupMKeys (mset m k v) := by
  unfold NodupMKeys at h ⊢
  cases hh : mhas m k with
  | true => rw [mkeys_mset_of_mhas m k v hh]; exact h
  | false =>
    rw [mkeys_mset_of_not_mhas m k v hh]
    rw [List.nodup_append]
    refine ⟨h, List.nodup_singleton k, ?_⟩
    intro a ha hb
    rw [List.mem_singleton] at hb
    subst hb
    rw [← mhas_iff_mem_mkeys] at ha
    rw [hh] at ha
    cases ha

/-- `delete` keeps the map's keys pairwise distinct. -/
theorem nodupMKeys_mdelete {α : Type} (m : MapList α) (k : String)
    (h : NodupMKeys m) : NodupMKeys (mdelete m k) := by
  unfold NodupMKeys at h ⊢
  have hsub : (mkeys (mdelete m k)).Sublist (mkeys m) :=
    (List.filter_sublist m).map Prod.fst
  exact h.sublist hsub

@[simp] theorem mget_nil {α : Type} (k : String) :
    mget ([] : MapList α) k = none := rfl

@[simp] theorem mget_cons {α : Type} (p : String × α) (t : MapList α)
    (k : String) :
    mget (p :: t) k = if p.1 = k then some p.2 else mget t k := rfl

theorem mget_mset_self {α : Type} (m : MapList α) (k : String) (v : α) :
    mget (mset m k v) k = some v := by
  induction m with
  | nil => simp [mset]
  | cons p t ih =>
    by_cases hp : p.1 = k
    · simp [mset, hp]
    · simp [mset, hp, ih]

theorem mget_mset_other {α : Type} (m : MapList α) (k k' : String) (v : α)
    (hne : k' ≠ k) : mget (mset m k v) k' = mget m k' := by
  induction m with
  | nil => simp [mset, Ne.symm hne]
  | cons p t ih =>
    by_cases hp : p.1 = k
    · rw [mset, if_pos (by exact_mod_cast hp)]
      rw [mget_cons, mget_cons, if_neg (Ne.symm hne), if_neg]
      rw [hp]
      exact Ne.symm hne
    · rw [mset, if_neg (by exact_mod_cast hp)]
      rw [mget_cons, mget_cons, ih]

theorem mget_eq_none_of_not_mhas {α : Type} (m : MapList α) (k : String)
    (h : mhas m k = false) : mget m k = none := by
  induction m with
  | nil => rfl
  | cons p t ih =>
    simp only [mhas_cons, Bool.or_eq_false_iff, decide_eq_false_iff_not] at h
    simp [h.1, ih h.2]

theorem mhas_eq_false_of_mget_eq_none {α : Type} (m : MapList α)
    (k : String) (h : mget m k = none) : mhas m k = false := by
  induction m with
  | nil => rfl
  | cons p t ih =>
    rw [mget_cons] at h
    by_cases hp : p.1 = k
    · rw [if_pos hp] at h; cases h
    · rw [if_neg hp] at h
      simp [hp, ih h]

@[simp] theorem mdelete_nil {α : Type} (k : String) :
    mdelete ([] : MapList α) k = [] := rfl

theorem mdelete_cons {α : Type} (p : String × α) (t : MapList α)
    (k : String) :
    mdelete (p :: t) k =
      if p.1 = k then mdelete t k else p :: mdelete t k := by
  unfold mdelete
  by_cases hp : p.1 = k
  · simp [List.filter_cons, hp]
  · simp [List.filter_cons, hp]

theorem mget_mdelete_self {α : Type} (m : MapList α) (k : String) :
    mget (mdelete m k) k = none := by
  induction m with
  | nil => rfl
  | cons p t ih =>
    rw [mdelete_cons]
    by_cases hp : p.1 = k
    · rw [if_pos hp]; exact ih
    · rw [if_neg hp, mget_cons, if_neg hp]; exact ih

theorem mget_mdelete_other {α : Type} (m : MapList α) (k k' : String)
    (hne : k' ≠ k) : mget (mdelete m k) k' = mget m k' := by
  induction m with
  | nil => rfl
  | cons p t ih =>
    rw [mdelete_cons]
    by_cases hp : p.1 = k
    · rw [if_pos hp, mget_cons, if_neg]
      · exact ih
      · rw [hp]; exact Ne.symm hne
    · rw [if_neg hp, mget_cons, mget_cons, ih]

@[simp] theorem upsertAll_nil {α : Type} (key : α → String)
    (m : MapList α) : upsertAll key m [] = m := rfl

@[simp] theorem upsertAll_cons {α : Type} (key : α → String)
    (m : MapList α) (a : α) (t : List α) :
    upsertAll key m (a :: t) = upsertAll key (mset m (key a) a) t := rfl

/-- Bulk upsert keeps keys pairwise distinct. -/
theorem nodupMKeys_upsertAll {α : Type} (key : α → String)
    (m : MapList α) (l : List α) (h : NodupMKeys m) :
    NodupMKeys (upsertAll key m l) := by
  induction l generalizing m with
  | nil => simpa using h
  | cons a t ih =>
    rw [upsertAll_cons]
    exact ih _ (nodupMKeys_mset m (key a) a h)

/-- Lookup after a bulk upsert: the last array element with the key wins;
keys the array never mentions keep their previous binding. -/
theorem mget_upsertAll {α : Type} (key : α → String) (m : MapList α)
    (l : List α) (k : String) :
    mget (upsertAll key m l) k = updOr (lastBy key l k) (mget m k) := by
  induction l generalizing m with
  | nil => rfl
  | cons a t ih =>
    rw [upsertAll_cons, ih]
    rcases hlast : lastBy key t k with _ | v
    · have hstep : lastBy key (a :: t) k
          = if key a = k then some a else none := by
        unfold lastBy
        rw [hlast]
      rw [hstep]
      by_cases hk : key a = k
      · rw [if_pos hk]
        show mget (mset m (key a) a) k = some a
        rw [← hk]
        exact mget_mset_self m (key a) a
      · rw [if_neg hk]
        show mget (mset m (key a) a) k = mget m k
        exact mget_mset_other m (key a) k a (Ne.symm hk)
    · have hstep : lastBy key (a :: t) k = some v := by
        unfold lastBy
        rw [hlast]
      rw [hstep]
      rfl

/-! ## C7 — reconnection backoff -/

/-- C7: with `maxReconnectAttempts = 5` and `reconnectDelay = 1000`, the
k-th reconnection attempt (1 ≤ k ≤ 5) is scheduled with delay `1000 * k`,
and with the counter at 5 no further attempt is scheduled. -/
theorem C7_reconnect_backoff :
    (∀ k : Nat, 1 ≤ k → k ≤ 5 →
      attemptReconnect (k - 1) = some (k, 1000 * k)) ∧
    attemptReconnect 5 = none := by
  constructor
  · intro k h1 h5
    unfold attemptReconnect maxReconnectAttempts reconnectDelay
    rw [if_pos (by omega)]
    have hk : k - 1 + 1 = k := by omega
    rw [hk]
  · decide

/-- C7 witness: the third attempt is scheduled 3000 ms out. -/
theorem C7_reconnect_backoff_witness :
    attemptReconnect 2 = some (3, 3000) := by
  have h := C7_reconnect_backoff.1 3 (by decide) (by decide)
  simpa using h

/-! ## C8 — manual disconnect does not cancel a pending reconnect -/

/-- C8: a reconnect timer scheduled by an unexpected close survives a
manual `disconnect()`; when it fires, `connect()` clears the
manual-disconnect flag and constructs a fresh socket.  Evaluated on the
failing trace: close → disconnect() → timer fires. -/
theorem C8_pending_reconnect_survives_disconnect :
    (clientDisconnect (clientOnClose connectedClient)).pendingReconnects
        = 1 ∧
    (clientTimerFire
        (clientDisconnect (clientOnClose connectedClient))).socketsCreated
        = 2 ∧
    (clientTimerFire
        (clientDisconnect
          (clientOnClose connectedClient))).isManuallyDisconnected
        = false ∧
    (clientTimerFire (clientDisconnect (clientOnClose connectedClient))).ws
        = some WSReady.connecting := by
  decide

/-! ## C4 — echo suppression for remote NODE_ADD -/

/-- C4: applying a remote `NODE_ADD` transmits nothing — the handler
raises the `isApplyingRemoteChange` flag before dispatching, and the
`addNode` listener effect forwards no frame while the flag is up. -/
theorem C4_echo_suppression :
    (∀ (s : SyncState) (n : GraphNode),
      (processRemoteNodeAdd s n).2 = []) ∧
    (∀ (connected : Bool) (n : GraphNode),
      forwardAddNode connected true n = none) := by
  constructor
  · intro s n
    unfold processRemoteNodeAdd
    by_cases h : s.applyingRemote
    · rw [if_pos h]
    · rw [if_neg h]
      simp [dispatchAddNode, forwardAddNode]
  · intro connected n
    simp [forwardAddNode]

/-- C10: a frame whose tag is outside the seven handled cases (including
`STATE_SYNC` and `FULL_STATE` from the server's own union) produces
exactly one `ERROR` send to the originating connection and leaves the
state — document and registry alike — unchanged. -/
theorem C10_unknown_type_error_only (s : ServerState) (ws : Client)
    (message : Msg) (h : isHandledByServer message = false) :
    handleMessage s ws message =
      (s, [(ws.id,
            Msg.err ("Unknown message type: " ++ msgTypeName message))]) := by
  cases message with
  | join p => simp [isHandledByServer] at h
  | nodeAdd p => simp [isHandledByServer] at h
  | nodeUpdate p => simp [isHandledByServer] at h
  | nodeRemove p => simp [isHandledByServer] at h
  | edgeAdd p => simp [isHandledByServer] at h
  | edgeUpdate p => simp [isHandledByServer] at h
  | edgeRemove p => simp [isHandledByServer] at h
  | stateSync p => rfl
  | fullState p => rfl
  | err p => rfl

/-- C10 witness: a `STATE_SYNC` frame arriving at the server is answered
by a single `ERROR` to the sender, with no state change. -/
theorem C10_unknown_type_error_only_witness :
    handleMessage initialServer client0
        (Msg.stateSync { nodes := [], edges := [] }) =
      (initialServer,
       [(0, Msg.err ("Unknown message type: "
          ++ msgTypeName (Msg.stateSync { nodes := [], edges := [] })))]) :=
  C10_unknown_type_error_only initialServer client0
    (Msg.stateSync { nodes := [], edges := [] }) rfl

/-! ## C9 — remote applications and non-core UI state -/

/-- C9 counterexample: the claim says the selected node is unchanged by
every remote application, but applying a remote `NODE_ADD` of a fresh node
selects it (`graphSlice.addNode` sets `selectedNode`). -/
theorem C9_counterexample :
    initialGraphState.selectedNode = none ∧
    (applyRemoteMsg initialGraphState (Msg.nodeAdd nodeA)).selectedNode
        = some "nA" := by
  constructor
  · rfl
  · decide

/-- C9 amended: applying any remote message changes only the nodes, edges
and selection fields — pathfinding results, cycle results, animation state
and settings are untouched by every remote application — and the `addNode`
listener effect builds its outgoing frame from the mutation payload alone
(it either forwards `NODE_ADD(payload)` or nothing). -/
theorem C9_remote_apply_frame (s : GraphState) (message : Msg) :
    (applyRemoteMsg s message).pathfindingResult = s.pathfindingResult ∧
    (applyRemoteMsg s message).cycleResult = s.cycleResult ∧
    (applyRemoteMsg s message).animationState = s.animationState ∧
    (applyRemoteMsg s message).settings = s.settings ∧
    (∀ (connected applyingRemote : Bool) (n : GraphNode),
      forwardAddNode connected applyingRemote n = some (Msg.nodeAdd n) ∨
      forwardAddNode connected applyingRemote n = none) := by
  refine ⟨?_, ?_, ?_, ?_, ?_⟩ <;>
    first
  | (cases message <;>
      simp only [applyRemoteMsg, graphSlice.addNode, graphSlice.removeNode,
        graphSlice.updateNode, graphSlice.addEdge, graphSlice.removeEdge,
        graphSlice.updateEdge, graphSlice.setGraphState] <;>
      split <;> rfl)
  | (intro connected applyingRemote n
     unfold forwardAddNode
     by_cases h : connected && !applyingRemote
     · left; rw [if_pos h]
     · right; rw [if_neg h])

/-- C5 counterexample: when the last connection *errors*, the registry
count reaches zero but the document is not reset — the `error` handler
only deletes the client, so the doc stays initialized and non-empty. -/
theorem C5_counterexample :
    (handleSocketError soloServer 0).clients = [] ∧
    (handleSocketError soloServer 0).isInitialized = true ∧
    (handleSocketError soloServer 0).doc ≠ emptyDoc := by
  refine ⟨rfl, rfl, ?_⟩
  decide

/-- C5 amended: both the close and the error handler remove the connection
from the registry; the document reset on reaching zero happens only in the
close handler (the error handler leaves doc and flag untouched), and a
fresh stateless join against a reset document is answered with an empty
`STATE_SYNC`. -/
theorem C5_close_resets_error_does_not (s : ServerState) (wsId : Nat) :
    (handleSocketClose s wsId).clients
        = s.clients.filter (fun c => c.id != wsId) ∧
    (s.clients.filter (fun c => c.id != wsId) = [] →
      (handleSocketClose s wsId).doc = emptyDoc ∧
      (handleSocketClose s wsId).isInitialized = false) ∧
    (handleSocketError s wsId).clients
        = s.clients.filter (fun c => c.id != wsId) ∧
    (handleSocketError s wsId).doc = s.doc ∧
    (handleSocketError s wsId).isInitialized = s.isInitialized ∧
    (∀ ws : Client, s.doc = emptyDoc →
      handleJoin s ws none
        = (s, sendMessage ws (Msg.stateSync { nodes := [], edges := [] }))) := by
  refine ⟨?_, ?_, rfl, rfl, rfl, ?_⟩
  · unfold handleSocketClose
    by_cases h : s.clients.filter (fun c => c.id != wsId) = []
    · rw [if_pos h]
    · rw [if_neg h]
  · intro h
    unfold handleSocketClose
    rw [if_pos h]
    exact ⟨rfl, rfl⟩
  · intro ws h
    unfold handleJoin
    rw [h]
    rfl

/-- C5 amended witness: closing the only connection of `soloServer` resets
the document and clears the initialization flag. -/
theorem C5_close_resets_witness :
    (handleSocketClose soloServer 0).doc = emptyDoc ∧
    (handleSocketClose soloServer 0).isInitialized = false := by
  have h := C5_close_resets_error_does_not soloServer 0
  exact h.2.1 (by decide)

/-- C1 counterexample: (i) a document-changing `NODE_ADD` from connection
0 is broadcast to connection 0 as well — the handlers pass
`excludeClient = null`, so the sender is *not* excluded; (ii) a
`NODE_UPDATE` whose payload equals the stored value leaves the document
unchanged yet still broadcasts. -/
theorem C1_counterexample :
    (0, Msg.nodeAdd nodeB)
        ∈ (handleMessage pairServer client0 (Msg.nodeAdd nodeB)).2 ∧
    (handleMessage pairServer client0 (Msg.nodeUpdate nodeA)).1
        = pairServer ∧
    (handleMessage pairServer client0 (Msg.nodeUpdate nodeA)).2 ≠ [] := by
  refine ⟨?_, ?_, ?_⟩ <;> decide

/-- An exclusion-free broadcast reaches exactly the open clients, in
registration order. -/
theorem serverBroadcast_none_eq (clients : List Client) (message : Msg) :
    serverBroadcast clients message none
      = (clients.filter (fun c => c.isOpen)).map
          (fun c => (c.id, message)) := by
  unfold serverBroadcast
  simp

/-- C1 amended: each mutation handler broadcasts the incoming message
verbatim to *every* open connection — the sender included, as no exclusion
is passed — exactly when the operation's precondition holds (insert: id
absent; update: id present; remove: id present); otherwise nothing is
sent.  (The precondition coincides with "the document changed" except for
an update re-writing an identical value.) -/
theorem C1_mutation_broadcast (s : ServerState) (n : GraphNode)
    (e : GraphEdge) (nodeId edgeId : String) :
    (handleNodeAdd s n).2
        = (if mhas s.doc.nodes n.id then []
           else (s.clients.filter (fun c => c.isOpen)).map
             (fun c => (c.id, Msg.nodeAdd n))) ∧
    (handleNodeUpdate s n).2
        = (if mhas s.doc.nodes n.id then
             (s.clients.filter (fun c => c.isOpen)).map
               (fun c => (c.id, Msg.nodeUpdate n))
           else []) ∧
    (handleNodeRemove s nodeId).2
        = (if mhas s.doc.nodes nodeId then
             (s.clients.filter (fun c => c.isOpen)).map
               (fun c => (c.id, Msg.nodeRemove nodeId))
           else []) ∧
    (handleEdgeAdd s e).2
        = (if mhas s.doc.edges e.id then []
           else (s.clients.filter (fun c => c.isOpen)).map
             (fun c => (c.id, Msg.edgeAdd e))) ∧
    (handleEdgeUpdate s e).2
        = (if mhas s.doc.edges e.id then
             (s.clients.filter (fun c => c.isOpen)).map
               (fun c => (c.id, Msg.edgeUpdate e))
           else []) ∧
    (handleEdgeRemove s edgeId).2
        = (if mhas s.doc.edges edgeId then
             (s.clients.filter (fun c => c.isOpen)).map
               (fun c => (c.id, Msg.edgeRemove edgeId))
           else []) := by
  refine ⟨?_, ?_, ?_, ?_, ?_, ?_⟩
  · by_cases h : mhas s.doc.nodes n.id = true
    · simp [handleNodeAdd, h]
    · simp [handleNodeAdd, h, serverBroadcast_none_eq]
  · by_cases h : mhas s.doc.nodes n.id = true
    · simp [handleNodeUpdate, h, serverBroadcast_none_eq]
    · simp [handleNodeUpdate, h]
  · by_cases h : mhas s.doc.nodes nodeId = true
    · simp [handleNodeRemove, h, serverBroadcast_none_eq]
    · simp [handleNodeRemove, h]
  · by_cases h : mhas s.doc.edges e.id = true
    · simp [handleEdgeAdd, h]
    · simp [handleEdgeAdd, h, serverBroadcast_none_eq]
  · by_cases h : mhas s.doc.edges e.id = true
    · simp [handleEdgeUpdate, h, serverBroadcast_none_eq]
    · simp [handleEdgeUpdate, h]
  · by_cases h : mhas s.doc.edges edgeId = true
    · simp [handleEdgeRemove, h, serverBroadcast_none_eq]
    · simp [handleEdgeRemove, h]

/-! ## C3 — node removal cascade -/

theorem mget_foldl_mdelete {α : Type} (ks : List String) (m : MapList α)
    (k : String) :
    mget (ks.foldl (fun acc i => mdelete acc i) m) k
      = if k ∈ ks then none else mget m k := by
  induction ks generalizing m with
  | nil => simp
  | cons i t ih =>
    rw [List.foldl_cons, ih]
    by_cases hk : k ∈ t
    · simp [hk]
    · by_cases hki : k = i
      · subst hki
        simp [hk, mget_mdelete_self]
      · simp [hk, hki, mget_mdelete_other m i k hki]

theorem mem_of_mget_eq_some {α : Type} (m : MapList α) (k : String) (v : α)
    (h : mget m k = some v) : (k, v) ∈ m := by
  induction m with
  | nil => cases h
  | cons p t ih =>
    rw [mget_cons] at h
    by_cases hp : p.1 = k
    · rw [if_pos hp] at h
      have hv : p.2 = v := by injection h
      have hpkv : p = (k, v) := by
        cases p
        simp_all
      rw [← hpkv]
      exact List.mem_cons_self p t
    · rw [if_neg hp] at h
      exact List.mem_cons_of_mem p (ih h)

theorem mget_eq_some_of_mem_of_nodup {α : Type} (m : MapList α)
    (k : String) (v : α) (hnd : NodupMKeys m) (hmem : (k, v) ∈ m) :
    mget m k = some v := by
  induction m with
  | nil => cases hmem
  | cons p t ih =>
    unfold NodupMKeys at hnd
    rw [mkeys_cons, List.nodup_cons] at hnd
    rcases List.mem_cons.mp hmem with h | h
    · rw [mget_cons, if_pos (by rw [← h])]
      rw [← h]
    · have hk : k ∈ mkeys t := List.mem_map.mpr ⟨(k, v), h, rfl⟩
      have hp : p.1 ≠ k := fun he => hnd.1 (he ▸ hk)
      rw [mget_cons, if_neg hp]
      exact ih hnd.2 h

theorem mem_edgesToRemove_iff (edges : MapList GraphEdge)
    (nodeId k : String) :
    k ∈ edgesToRemove edges nodeId
      ↔ ∃ v, (k, v) ∈ edges ∧ (v.source = nodeId ∨ v.target = nodeId) := by
  unfold edgesToRemove
  simp only [List.mem_map, List.mem_filter, Bool.or_eq_true, beq_iff_eq]
  constructor
  · rintro ⟨⟨k', v⟩, ⟨hmem, hpred⟩, rfl⟩
    exact ⟨v, hmem, hpred⟩
  · rintro ⟨v, hmem, hpred⟩
    exact ⟨(k, v), ⟨hmem, hpred⟩, rfl⟩

/-- C3: when the node is present, `handleNodeRemove` deletes it together
with every edge whose source or target equals it, in the same step, before
broadcasting; when it is absent, the whole operation is the identity and
nothing is sent. -/
theorem C3_node_remove_cascade (s : ServerState) (nodeId : String)
    (hnd : NodupMKeys s.doc.edges) :
    (mhas s.doc.nodes nodeId = true →
      mget (handleNodeRemove s nodeId).1.doc.nodes nodeId = none ∧
      (∀ k, k ≠ nodeId →
        mget (handleNodeRemove s nodeId).1.doc.nodes k
          = mget s.doc.nodes k) ∧
      (∀ k e, mget s.doc.edges k = some e →
        mget (handleNodeRemove s nodeId).1.doc.edges k
          = if e.source = nodeId ∨ e.target = nodeId then none
            else some e) ∧
      (∀ k, mget s.doc.edges k = none →
        mget (handleNodeRemove s nodeId).1.doc.edges k = none) ∧
      (handleNodeRemove s nodeId).1.isInitialized = s.isInitialized ∧
      (handleNodeRemove s nodeId).1.clients = s.clients ∧
      (handleNodeRemove s nodeId).2
        = (s.clients.filter (fun c => c.isOpen)).map
            (fun c => (c.id, Msg.nodeRemove nodeId))) ∧
    (mhas s.doc.nodes nodeId = false →
      handleNodeRemove s nodeId = (s, [])) := by
  constructor
  · intro h
    unfold handleNodeRemove
    rw [if_pos h]
    refine ⟨mget_mdelete_self _ _, ?_, ?_, ?_, rfl, rfl, ?_⟩
    · intro k hk
      exact mget_mdelete_other s.doc.nodes nodeId k hk
    · intro k e he
      rw [mget_foldl_mdelete]
      by_cases htouch : e.source = nodeId ∨ e.target = nodeId
      · rw [if_pos ((mem_edgesToRemove_iff s.doc.edges nodeId k).mpr
          ⟨e, mem_of_mget_eq_some s.doc.edges k e he, htouch⟩)]
        rw [if_pos htouch]
      · rw [if_neg, if_neg htouch]
        · exact he
        · intro hmem
          obtain ⟨v, hv, hvt⟩ :=
            (mem_edgesToRemove_iff s.doc.edges nodeId k).mp hmem
          have := mget_eq_some_of_mem_of_nodup s.doc.edges k v hnd hv
          rw [he] at this
          obtain rfl := Option.some_injective _ this.symm
          exact htouch hvt
    · intro k hk
      rw [mget_foldl_mdelete]
      by_cases hmem : k ∈ edgesToRemove s.doc.edges nodeId
      · rw [if_pos hmem]
      · rw [if_neg hmem]
        exact hk
    · exact serverBroadcast_none_eq s.clients (Msg.nodeRemove nodeId)
  · intro h
    unfold handleNodeRemove
    rw [if_neg (by simp [h])]

/-- C3 witness: removing `nA` deletes the node and the touching edge
`eAB`, and leaves `nB`. -/
theorem C3_node_remove_cascade_witness :
    mget (handleNodeRemove cascadeServer "nA").1.doc.nodes "nA" = none ∧
    mget (handleNodeRemove cascadeServer "nA").1.doc.edges "eAB" = none ∧
    mget (handleNodeRemove cascadeServer "nA").1.doc.nodes "nB"
      = some nodeB := by
  have h := (C3_node_remove_cascade cascadeServer "nA" (by decide)).1
    (by decide)
  refine ⟨h.1, ?_, ?_⟩
  · have he := h.2.2.1 "eAB" edgeAB (by decide)
    rw [he]
    decide
  · have hn := h.2.1 "nB" (by decide)
    rw [hn]
    decide

/-! ## Reduction lemmas for `handleJoin` and `mergeStateIntoDoc` -/

theorem handleJoin_none (s : ServerState) (ws : Client) :
    handleJoin s ws none
      = (s, sendMessage ws (Msg.stateSync (getStateFromDoc s.doc))) := rfl

theorem handleJoin_some (s : ServerState) (ws : Client)
    (st : SharedGraphState) :
    handleJoin s ws (some st)
      = if s.isInitialized = false then
          ({ s with doc := initDocWithState st, isInitialized := true },
           sendMessage ws
             (Msg.stateSync (getStateFromDoc (initDocWithState st))))
        else
          ({ s with doc := mergeStateIntoDoc st s.doc },
           sendMessage ws
               (Msg.stateSync (getStateFromDoc (mergeStateIntoDoc st s.doc)))
             ++ serverBroadcast s.clients
               (Msg.stateSync (getStateFromDoc (mergeStateIntoDoc st s.doc)))
               (some ws.id)) := rfl

theorem mergeStateIntoDoc_nodes (st : SharedGraphState) (d : YDocState) :
    (mergeStateIntoDoc st d).nodes
      = upsertAll GraphNode.id d.nodes st.nodes := rfl

theorem mergeStateIntoDoc_edges (st : SharedGraphState) (d : YDocState) :
    (mergeStateIntoDoc st d).edges
      = upsertAll GraphEdge.id d.edges st.edges := rfl

/-! ## C2 — join-time merge and fan-out -/

theorem snd_of_mem_serverBroadcast (clients : List Client) (message : Msg)
    (excludeClient : Option Nat) :
    ∀ x ∈ serverBroadcast clients message excludeClient, x.2 = message := by
  intro x hx
  unfold serverBroadcast at hx
  obtain ⟨c, _, rfl⟩ := List.mem_map.mp hx
  rfl

theorem eq_of_mem_sendMessage (ws : Client) (message : Msg)
    (x : Send) (hx : x ∈ sendMessage ws message) : x = (ws.id, message) := by
  unfold sendMessage at hx
  by_cases h : ws.isOpen = true
  · rw [if_pos h] at hx
    exact List.mem_singleton.mp hx
  · rw [if_neg h] at hx
    cases hx

/-- C2: a `JOIN` carrying a state while the document is initialized merges
the payload by id (for every key the *last* payload entry carrying it
wins, and unmentioned keys keep their binding), answers the joiner with
`STATE_SYNC` of the merged snapshot when its socket is open, and sends the
same snapshot to every other open connection; every send of the handler
carries that one merged snapshot. -/
theorem C2_join_merges_and_fans_out (s : ServerState) (ws : Client)
    (st : SharedGraphState) (hinit : s.isInitialized = true) :
    (handleJoin s ws (some st)).1
        = { s with doc := mergeStateIntoDoc st s.doc } ∧
    (∀ k, mget (mergeStateIntoDoc st s.doc).nodes k
        = updOr (lastBy GraphNode.id st.nodes k) (mget s.doc.nodes k)) ∧
    (∀ k, mget (mergeStateIntoDoc st s.doc).edges k
        = updOr (lastBy GraphEdge.id st.edges k) (mget s.doc.edges k)) ∧
    (∀ x ∈ (handleJoin s ws (some st)).2,
      x.2 = Msg.stateSync (getStateFromDoc (mergeStateIntoDoc st s.doc))) ∧
    (ws.isOpen = true →
      (ws.id, Msg.stateSync (getStateFromDoc (mergeStateIntoDoc st s.doc)))
        ∈ (handleJoin s ws (some st)).2) ∧
    (∀ c ∈ s.clients, c.isOpen = true → c.id ≠ ws.id →
      (c.id, Msg.stateSync (getStateFromDoc (mergeStateIntoDoc st s.doc)))
        ∈ (handleJoin s ws (some st)).2) := by
  have hcond : ¬(s.isInitialized = false) := by rw [hinit]; simp
  have hred : handleJoin s ws (some st)
      = ({ s with doc := mergeStateIntoDoc st s.doc },
         sendMessage ws
             (Msg.stateSync (getStateFromDoc (mergeStateIntoDoc st s.doc)))
           ++ serverBroadcast s.clients
             (Msg.stateSync (getStateFromDoc (mergeStateIntoDoc st s.doc)))
             (some ws.id)) := by
    rw [handleJoin_some, if_neg hcond]
  refine ⟨?_, ?_, ?_, ?_, ?_, ?_⟩
  · rw [hred]
  · intro k
    rw [mergeStateIntoDoc_nodes]
    exact mget_upsertAll GraphNode.id s.doc.nodes st.nodes k
  · intro k
    rw [mergeStateIntoDoc_edges]
    exact mget_upsertAll GraphEdge.id s.doc.edges st.edges k
  · intro x hx
    rw [hred] at hx
    rcases List.mem_append.mp hx with h | h
    · rw [eq_of_mem_sendMessage _ _ _ h]
    · exact snd_of_mem_serverBroadcast _ _ _ x h
  · intro hopen
    rw [hred]
    refine List.mem_append.mpr (Or.inl ?_)
    unfold sendMessage
    rw [if_pos hopen]
    exact List.mem_singleton.mpr rfl
  · intro c hc hcopen hcne
    rw [hred]
    refine List.mem_append.mpr (Or.inr ?_)
    unfold serverBroadcast
    refine List.mem_map.mpr ⟨c, List.mem_filter.mpr ⟨hc, ?_⟩, rfl⟩
    simp [hcopen, hcne]

/-- C2 witness: connection 1 joins `joinServer` with `{[nodeB], [edgeAB]}`;
the merged document gains `nB` and keeps `nA`, the joiner receives the
merged snapshot, and connection 0 receives the same snapshot. -/
theorem C2_join_merges_and_fans_out_witness :
    mget (mergeStateIntoDoc { nodes := [nodeB], edges := [edgeAB] }
        joinServer.doc).nodes "nB" = some nodeB ∧
    mget (mergeStateIntoDoc { nodes := [nodeB], edges := [edgeAB] }
        joinServer.doc).nodes "nA" = some nodeA ∧
    (1, Msg.stateSync (getStateFromDoc
        (mergeStateIntoDoc { nodes := [nodeB], edges := [edgeAB] }
          joinServer.doc)))
      ∈ (handleJoin joinServer client1
          (some { nodes := [nodeB], edges := [edgeAB] })).2 ∧
    (0, Msg.stateSync (getStateFromDoc
        (mergeStateIntoDoc { nodes := [nodeB], edges := [edgeAB] }
          joinServer.doc)))
      ∈ (handleJoin joinServer client1
          (some { nodes := [nodeB], edges := [edgeAB] })).2 := by
  have h := C2_join_merges_and_fans_out joinServer client1
    { nodes := [nodeB], edges := [edgeAB] } rfl
  refine ⟨?_, ?_, ?_, ?_⟩
  · rw [h.2.1 "nB"]
    decide
  · rw [h.2.1 "nA"]
    decide
  · exact h.2.2.2.2.1 rfl
  · exact h.2.2.2.2.2 client0 (by decide) rfl (by decide)

/-! ## C6 — id uniqueness in every reachable document -/

theorem nodupMKeys_foldl_mdelete {α : Type} (ks : List String)
    (m : MapList α) (h : NodupMKeys m) :
    NodupMKeys (ks.foldl (fun acc i => mdelete acc i) m) := by
  induction ks generalizing m with
  | nil => exact h
  | cons i t ih =>
    rw [List.foldl_cons]
    exact ih (mdelete m i) (nodupMKeys_mdelete m i h)

theorem docInv_handleMessage (s : ServerState) (c : Client) (m : Msg)
    (hn : NodupMKeys s.doc.nodes) (he : NodupMKeys s.doc.edges) :
    NodupMKeys (handleMessage s c m).1.doc.nodes ∧
    NodupMKeys (handleMessage s c m).1.doc.edges := by
  cases m with
  | join p =>
    cases p with
    | none => exact ⟨hn, he⟩
    | some st =>
      show NodupMKeys (handleJoin s c (some st)).1.doc.nodes ∧
        NodupMKeys (handleJoin s c (some st)).1.doc.edges
      rw [handleJoin_some]
      by_cases hinit : s.isInitialized = false
      · rw [if_pos hinit]
        exact ⟨nodupMKeys_upsertAll GraphNode.id [] st.nodes List.nodup_nil,
          nodupMKeys_upsertAll GraphEdge.id [] st.edges List.nodup_nil⟩
      · rw [if_neg hinit]
        exact ⟨nodupMKeys_upsertAll GraphNode.id s.doc.nodes st.nodes hn,
          nodupMKeys_upsertAll GraphEdge.id s.doc.edges st.edges he⟩
  | nodeAdd n =>
    show NodupMKeys (handleNodeAdd s n).1.doc.nodes ∧
      NodupMKeys (handleNodeAdd s n).1.doc.edges
    unfold handleNodeAdd
    by_cases h : mhas s.doc.nodes n.id = true
    · rw [if_pos h]
      exact ⟨hn, he⟩
    · rw [if_neg h]
      exact ⟨nodupMKeys_mset s.doc.nodes n.id n hn, he⟩
  | nodeUpdate n =>
    show NodupMKeys (handleNodeUpdate s n).1.doc.nodes ∧
      NodupMKeys (handleNodeUpdate s n).1.doc.edges
    unfold handleNodeUpdate
    by_cases h : mhas s.doc.nodes n.id = true
    · rw [if_pos h]
      exact ⟨nodupMKeys_mset s.doc.nodes n.id n hn, he⟩
    · rw [if_neg h]
      exact ⟨hn, he⟩
  | nodeRemove i =>
    show NodupMKeys (handleNodeRemove s i).1.doc.nodes ∧
      NodupMKeys (handleNodeRemove s i).1.doc.edges
    unfold handleNodeRemove
    by_cases h : mhas s.doc.nodes i = true
    · rw [if_pos h]
      exact ⟨nodupMKeys_mdelete s.doc.nodes i hn,
        nodupMKeys_foldl_mdelete _ s.doc.edges he⟩
    · rw [if_neg h]
      exact ⟨hn, he⟩
  | edgeAdd e =>
    show NodupMKeys (handleEdgeAdd s e).1.doc.nodes ∧
      NodupMKeys (handleEdgeAdd s e).1.doc.edges
    unfold handleEdgeAdd
    by_cases h : mhas s.doc.edges e.id = true
    · rw [if_pos h]
      exact ⟨hn, he⟩
    · rw [if_neg h]
      exact ⟨hn, nodupMKeys_mset s.doc.edges e.id e he⟩
  | edgeUpdate e =>
    show NodupMKeys (handleEdgeUpdate s e).1.doc.nodes ∧
      NodupMKeys (handleEdgeUpdate s e).1.doc.edges
    unfold handleEdgeUpdate
    by_cases h : mhas s.doc.edges e.id = true
    · rw [if_pos h]
      exact ⟨hn, nodupMKeys_mset s.doc.edges e.id e he⟩
    · rw [if_neg h]
      exact ⟨hn, he⟩
  | edgeRemove i =>
    show NodupMKeys (handleEdgeRemove s i).1.doc.nodes ∧
      NodupMKeys (handleEdgeRemove s i).1.doc.edges
    unfold handleEdgeRemove
    by_cases h : mhas s.doc.edges i = true
    · rw [if_pos h]
      exact ⟨hn, nodupMKeys_mdelete s.doc.edges i he⟩
    · rw [if_neg h]
      exact ⟨hn, he⟩
  | stateSync p => exact ⟨hn, he⟩
  | fullState p => exact ⟨hn, he⟩
  | err p => exact ⟨hn, he⟩

theorem docInv_foldl (ms : List (Client × Msg)) (s : ServerState)
    (hn : NodupMKeys s.doc.nodes) (he : NodupMKeys s.doc.edges) :
    NodupMKeys ((ms.foldl applyIncoming s).doc.nodes) ∧
    NodupMKeys ((ms.foldl applyIncoming s).doc.edges) := by
  induction ms generalizing s with
  | nil => exact ⟨hn, he⟩
  | cons cm t ih =>
    rw [List.foldl_cons]
    have h := docInv_handleMessage s cm.1 cm.2 hn he
    exact ih (applyIncoming s cm) h.1 h.2

/-- C6: after any sequence of inbound frames — joins that initialize or
merge with arbitrary payloads (repeated ids included) and any mutation
messages — the document's node keys and edge keys are pairwise distinct. -/
theorem C6_ids_unique_in_reachable_docs (ms : List (Client × Msg)) :
    NodupMKeys ((ms.foldl applyIncoming initialServer).doc.nodes) ∧
    NodupMKeys ((ms.foldl applyIncoming initialServer).doc.edges) :=
  docInv_foldl ms initialServer List.nodup_nil List.nodup_nil
